import Mathlib

/-!
Verification of the Document-Text summariser repository.

The repository has five Python modules: `summarizers.py` (a local extractive
summariser and an online one behind a shared contract, plus a factory),
`storage.py` (SQLite persistence), `app.py` (Flask handlers), `cli.py`
(command-line interface) and `parsers.py` (file parsing).

The local summariser's extractive algorithms (sentence tokenization,
TextRank ranking, LSA key-point extraction) are delegated to an external
library that is not part of the repository's sources; those parts are
modelled from the specification (sections 4.1 - 4.5), as marked in the
doc comments below.  Everything else (the length-tier table, the fallback
strings, the credential check, the handlers and the persistence layer) is
translated directly from the repository's code.

Strings are embedded as Lean `String` at API boundaries and as `List Char`
(`Str`) where character-level reasoning is required; Python's arbitrary
precision integers are `Nat`/`Int`; SQLite is a list of rows plus the
autoincrement counter; the JSON text layer of `json.dumps`/`json.loads`
is embedded at the level of parse-classified text (`JText`): well-formed
text is identified with the JSON value it parses to, since the standard
library guarantees `loads (dumps x) = x`, and malformed text is carried
verbatim.
-/

abbrev Str := List Char

/-- Modelled from the spec (4.1): the sentence-terminator characters used by
the sentence-boundary rules. -/
def isTerminatorChar (c : Char) : Bool :=
  c == '.' || c == '!' || c == '?'

/-- Whitespace test used for trimming, mirroring Python's `str.strip()` on
the characters that occur in this domain. -/
def isSpaceChar (c : Char) : Bool :=
  c == ' ' || c == '\n' || c == '\t' || c == '\r'

/-- Modelled from the spec (4.1): split raw text into sentence chunks.  A
chunk extends up to and including a terminator character; a trailing chunk
without terminator is kept.  The accumulator holds the current chunk in
reverse. -/
def splitAcc : Str → Str → List Str
  | [], acc => if acc = [] then [] else [acc.reverse]
  | c :: rest, acc =>
    if isTerminatorChar c then (acc.reverse ++ [c]) :: splitAcc rest []
    else splitAcc rest (c :: acc)

/-- Modelled from the spec (4.1): the sentence chunks of a text. -/
def splitSentencesChunks (l : Str) : List Str :=
  splitAcc l []

/-- Trim leading and trailing whitespace from a chunk (Python `str.strip()`). -/
def trimChunk (l : Str) : Str :=
  ((l.dropWhile isSpaceChar).reverse.dropWhile isSpaceChar).reverse

/-- Modelled from the spec (4.1): the surface texts of the sentences of a
text, original order preserved; whitespace-only chunks are discarded. -/
def sentenceTexts (text : Str) : List Str :=
  (splitSentencesChunks text).map trimChunk |>.filter (fun s => !s.isEmpty)

/-- Word characters for token extraction. -/
def isWordChar (c : Char) : Bool :=
  c.isAlphanum

/-- Modelled from the spec (4.1): split a sentence into words, the maximal
runs of word characters.  The accumulator holds the current word in
reverse. -/
def splitWordsAcc : Str → Str → List Str
  | [], acc => if acc = [] then [] else [acc.reverse]
  | c :: rest, acc =>
    if isWordChar c then splitWordsAcc rest (c :: acc)
    else if acc = [] then splitWordsAcc rest []
    else acc.reverse :: splitWordsAcc rest []

/-- Modelled from the spec (4.1): the fixed configured stopword set. -/
def stopwords : List Str :=
  ["the", "a", "an", "and", "or", "of", "to", "in", "on", "at", "is", "are",
   "was", "were", "be", "been", "it", "this", "that", "these", "those",
   "with", "as", "for", "by", "from", "not", "but", "his", "her", "they"
  ].map String.toList

/-- Modelled from the spec (4.1, glossary): a deterministic stemmer; a
representative suffix-stripping rule standing in for the library stemmer. -/
def stem (w : Str) : Str :=
  if 3 ≤ w.length ∧ w.getLastD 'a' = 's' then w.dropLast else w

/-- Modelled from the spec (4.1): lowercase, strip punctuation, remove
stopwords, stem. -/
def normalizeTokens (s : Str) : List Str :=
  ((splitWordsAcc (s.map Char.toLower) []).filter
    (fun w => !stopwords.contains w)).map stem

/-- Modelled from the spec (section 3): a sentence record - original index,
surface text, normalized token list. -/
structure Sentence where
  idx : Nat
  text : Str
  tokens : List Str
deriving DecidableEq

/-- Modelled from the spec (4.1): the tokenizer - ordered sequence of
sentence records, index = position in source order. -/
def tokenize (text : String) : List Sentence :=
  let ss := sentenceTexts text.toList
  (List.range ss.length).map
    (fun i => ⟨i, ss.getD i [], normalizeTokens (ss.getD i [])⟩)

/-- Term frequency of a token in a sentence (cell of the frequency vector). -/
def tf (s : Sentence) (t : Str) : ℚ :=
  (s.tokens.count t : ℕ)

/-- Dot product of the token-frequency vectors of two sentences over the
union vocabulary. -/
def dotP (a b : Sentence) : ℚ :=
  ((a.tokens ++ b.tokens).dedup.map (fun t => tf a t * tf b t)).sum

/-- Modelled from the spec (4.2): similarity of two sentences.  The spec's
cosine similarity needs a square root, which does not exist in `ℚ`; the
square of the cosine is used instead, which is also valued in `[0,1]`, is
zero exactly when the cosine is, and keeps the development executable.
Pairs with zero shared vocabulary get weight 0. -/
def simWeight (a b : Sentence) : ℚ :=
  let na := dotP a a
  let nb := dotP b b
  if na = 0 ∨ nb = 0 then 0 else (dotP a b) ^ 2 / (na * nb)

/-- Modelled from the spec (4.2): edge weight of the similarity graph; no
self-loops. -/
def edgeWeight (sents : List Sentence) (i j : Nat) : ℚ :=
  if i = j then 0
  else
    match sents[i]?, sents[j]? with
    | some a, some b => simWeight a b
    | _, _ => 0

/-- Modelled from the spec (4.3): the damping factor, fixed at 0.85. -/
def damping : ℚ := 85 / 100

/-- Modelled from the spec (4.3): convergence threshold, fixed at 1e-4. -/
def convergenceEps : ℚ := 1 / 10000

/-- Total outgoing edge weight of node `j`. -/
def outW (sents : List Sentence) (j : Nat) : ℚ :=
  ((List.range sents.length).map (edgeWeight sents j)).sum

/-- Modelled from the spec (4.3): one power-iteration step of TextRank. -/
def trStep (sents : List Sentence) (score : Nat → ℚ) : Nat → ℚ :=
  fun i =>
    let n : ℚ := (sents.length : ℕ)
    (1 - damping) / n + damping *
      ((List.range sents.length).map
        (fun j =>
          if outW sents j = 0 then 0
          else edgeWeight sents i j / outW sents j * score j)).sum

/-- Maximum absolute change between two score assignments over `n` nodes. -/
def maxAbsChange (n : Nat) (s1 s2 : Nat → ℚ) : ℚ :=
  ((List.range n).map (fun i => |s1 i - s2 i|)).foldl max 0

/-- Modelled from the spec (4.3): iterate the TextRank step until the
maximum absolute change drops below the threshold or the fuel (the fixed
maximum of 100 iterations) runs out. -/
def trIterate (sents : List Sentence) : Nat → (Nat → ℚ) → (Nat → ℚ)
  | 0, s => s
  | fuel + 1, s =>
    let s2 := trStep sents s
    if maxAbsChange sents.length s s2 < convergenceEps then s2
    else trIterate sents fuel s2

/-- Modelled from the spec (4.3): the full TextRank salience computation -
scores initialized to `1/N`, at most 100 iterations, final scores
normalized to sum to one. -/
def textrank (sents : List Sentence) : List ℚ :=
  let n := sents.length
  let final := trIterate sents 100 (fun _ => 1 / (n : ℚ))
  let total := ((List.range n).map final).sum
  (List.range n).map (fun i => if total = 0 then final i else final i / total)

/-- Score of index `i`, with 0 as the out-of-range default. -/
def scoreAt (scores : List ℚ) (i : Nat) : ℚ :=
  scores.getD i 0

/-- Modelled from the spec (4.3): the ranking order - higher score first,
ties broken by lower original sentence index. -/
def beats (scores : List ℚ) (i j : Nat) : Bool :=
  decide (scoreAt scores j < scoreAt scores i) ||
    (decide (scoreAt scores i = scoreAt scores j) && decide (i < j))

/-- Best-ranked index among the candidates (none for an empty list). -/
def argBest (scores : List ℚ) : List Nat → Option Nat
  | [] => none
  | c :: cs =>
    match argBest scores cs with
    | none => some c
    | some b => if beats scores b c then some b else some c

/-- The `k` best-ranked candidate indices, in ranking order. -/
def topIndicesAux (scores : List ℚ) : Nat → List Nat → List Nat
  | 0, _ => []
  | k + 1, cands =>
    match argBest scores cands with
    | none => []
    | some b => b :: topIndicesAux scores k (cands.erase b)

/-- Modelled from the spec (4.5): indices of the top-`count` sentences by
salience, re-sorted ascending by original index. -/
def selectIdx (scores : List ℚ) (count : Nat) : List Nat :=
  let top := topIndicesAux scores count (List.range scores.length)
  (List.range scores.length).filter (fun i => decide (i ∈ top))

/-- Code `summarizers.py` lines 57-61: the length-tier configuration
table. -/
def sentence_counts : List (String × Nat) :=
  [("short", 3), ("medium", 5), ("long", 8)]

/-- Code `summarizers.py` line 62: `sentence_counts.get(length, 5)`. -/
def sentenceCountFor (tier : String) : Nat :=
  (sentence_counts.lookup tier).getD 5

/-- Python `' '.join(...)` on the selected sentence texts. -/
def joinWords : List Str → Str
  | [] => []
  | w :: rest => w ++ (rest.map (fun r => ' ' :: r)).flatten

/-- The selected summary sentences for a requested count: rank by TextRank,
keep the top `count`, restore original order. -/
def summarySelectionC (text : String) (count : Nat) : List Sentence :=
  let sents := tokenize text
  (selectIdx (textrank sents) count).filterMap (fun i => sents[i]?)

/-- Code `summarizers.py` lines 37-73 (`LocalSummarizer.summarize`), with
the extractive pipeline modelled from the spec: summarize with an explicit
sentence count; empty result falls back to a 500-character prefix of the
raw text followed by an ellipsis. -/
def summarizeCore (text : String) (count : Nat) : String :=
  let summary := joinWords ((summarySelectionC text count).map Sentence.text)
  if summary = [] then ((text.toList.take 500) ++ "...".toList).asString
  else summary.asString

namespace LocalSummarizer

/-- Code `summarizers.py` lines 37-73: `LocalSummarizer.summarize`. -/
def summarize (text : String) (tier : String) : String :=
  summarizeCore text (sentenceCountFor tier)

end LocalSummarizer

/-- Modelled from the spec (4.4): the distinct stemmed terms across all
sentences - the rows of the term-by-sentence TopicMatrix. -/
def lsaTerms (sents : List Sentence) : List Str :=
  ((sents.map Sentence.tokens).flatten).dedup

/-- Squared Euclidean norm of the term-frequency column of a sentence. -/
def colWeight (s : Sentence) : ℚ :=
  (s.tokens.dedup.map (fun t => ((s.tokens.count t : ℕ) : ℚ) ^ 2)).sum

/-- Modelled from the spec (4.4): the LSA topic extractor.  The degenerate
check and fallback follow the spec exactly: an empty term set (all-zero
matrix) returns the first `k` sentences in original order.  On
non-degenerate input the exact singular vectors are irrational, so the
per-dimension selection is realised by the executable surrogate of greedy
selection by descending squared column norm (ties to the lower index),
skipping sentences already selected - it has the selection discipline the
spec describes (one sentence per dimension, first-claim wins, dimensions
processed in descending order).  Every claim settled in this file depends
only on the degenerate branch. -/
def lsaSelect (sents : List Sentence) (k : Nat) : List Sentence :=
  if lsaTerms sents = [] then sents.take k
  else
    (topIndicesAux (sents.map colWeight) k (List.range sents.length)).filterMap
      (fun i => sents[i]?)

namespace LocalSummarizer

/-- Code `summarizers.py` lines 75-102: `LocalSummarizer.extract_key_points`,
with the LSA pipeline modelled from the spec; each sentence string is
stripped; an empty result falls back to a single 200-character prefix
entry. -/
def extract_key_points (text : String) (max_points : Nat) : List String :=
  let key_points :=
    (lsaSelect (tokenize text) max_points).map
      (fun s => (trimChunk s.text).asString)
  if key_points.isEmpty then [((text.toList.take 200) ++ "...".toList).asString]
  else key_points

end LocalSummarizer

/-- Code `summarizers.py` line 119: the missing-credential error message
raised by `OnlineSummarizer._get_model`. -/
def missingKeyMsg : String :=
  "API key is required for online summarization. Get one at https://aistudio.google.com/"

/-- Code `summarizers.py` lines 140-144: the per-tier instruction table of
the online summarizer. -/
def length_instructions : List (String × String) :=
  [("short", "in 2-3 sentences"),
   ("medium", "in 4-6 sentences"),
   ("long", "in a detailed paragraph of 8-10 sentences")]

/-- Code `summarizers.py` lines 146-152: the summarization prompt sent to
the remote model (text truncated to 10000 characters). -/
def onlinePrompt (text tier : String) : String :=
  "Summarize the following text " ++
    ((length_instructions.lookup tier).getD "in 4-6 sentences") ++
    ". \nFocus on the main ideas and key information. Be concise and clear.\n\nTEXT:\n" ++
    (text.toList.take 10000).asString ++ "\n\nSUMMARY:"

/-- Code `summarizers.py` lines 170-177: the key-point prompt sent to the
remote model. -/
def onlineKPPrompt (text : String) (max_points : Nat) : String :=
  "Extract exactly " ++ toString max_points ++
    " key points from the following text.\nFormat each point as a clear, concise bullet point.\nReturn ONLY the bullet points, one per line, starting with \"•\".\n\nTEXT:\n" ++
    (text.toList.take 10000).asString ++ "\n\nKEY POINTS:"

/-- Code `summarizers.py` line 188: remove a leading bullet marker and the
whitespace after it (the regex `^[bullet\-*] whitespace*`). -/
def stripBulletMarker (line : Str) : Str :=
  match line with
  | c :: rest =>
    if c == '•' || c == '-' || c == '*' then rest.dropWhile isSpaceChar
    else line
  | [] => line

/-- Code `summarizers.py` lines 181-192: parse the remote response into at
most `max_points` non-empty bullet lines, in order. -/
def parseBullets (resp : String) (max_points : Nat) : List String :=
  let lines := (trimChunk resp.toList).splitOn '\n'
  (((lines.map (fun l => stripBulletMarker (trimChunk l))).filter
    (fun l => !l.isEmpty)).take max_points).map List.asString

/-- Code `summarizers.py` lines 105-208: the two summarizer strategies
behind the shared contract, as produced by the factory. -/
inductive Summarizer where
  | localMode : Summarizer
  | onlineMode (api_key : Option String) : Summarizer
deriving DecidableEq

/-- Code `summarizers.py` lines 195-208: the factory - `'online'` selects
the online strategy (carrying the credential), everything else the local
one. -/
def get_summarizer (mode : String) (api_key : Option String) : Summarizer :=
  if mode = "online" then .onlineMode api_key else .localMode

/-- Python truthiness of the credential: `not self.api_key` is true for
`None` and for the empty string. -/
def credentialMissing (api_key : Option String) : Bool :=
  api_key.getD "" == ""

/-- Code `summarizers.py` lines 127-155 and 115-125: `summarize` on either
strategy.  The remote generative model is the external collaborator
`remote` (prompt to response text); a missing credential raises, embedded
as an `Except.error`. -/
def Summarizer.runSummarize (remote : String → String) :
    Summarizer → String → String → Except String String
  | .localMode, text, tier => .ok (LocalSummarizer.summarize text tier)
  | .onlineMode key, text, tier =>
    if credentialMissing key then .error missingKeyMsg
    else .ok (trimChunk (remote (onlinePrompt text tier)).toList).asString

/-- Code `summarizers.py` lines 157-192 and 115-125: `extract_key_points`
on either strategy. -/
def Summarizer.runExtract (remote : String → String) :
    Summarizer → String → Nat → Except String (List String)
  | .localMode, text, k => .ok (LocalSummarizer.extract_key_points text k)
  | .onlineMode key, text, k =>
    if credentialMissing key then .error missingKeyMsg
    else
      let resp := remote (onlineKPPrompt text k)
      let parsed := parseBullets resp k
      .ok (if parsed.isEmpty then [(trimChunk resp.toList).asString] else parsed)

/-- Python truthiness of `not text or not text.strip()`: the text is empty
or consists only of whitespace. -/
def blankText (text : String) : Bool :=
  text.toList.all isSpaceChar

/-- Code `app.py` lines 78-87: the JSON result assembled by the
`/api/summarize` handler (the persistence branch is modelled separately by
the storage layer below). -/
structure ApiResult where
  summary : String
  key_points : List String
  mode : String
  length : String
  filename : String
  file_type : String
  original_length : Nat
  summary_length : Nat
deriving DecidableEq

/-- Code `app.py` lines 43-107: the `/api/summarize` handler after text
extraction - reject empty or whitespace-only text with the
`'No text provided'` 400 error before any summarizer is constructed or
invoked, otherwise run `summarize` then `extract_key_points` on the
strategy chosen by the factory (credential forwarded only in online mode),
surfacing the first raised error. -/
def apiSummarize (remote : String → String) (mode tier api_key text filename
    file_type : String) : Except String ApiResult :=
  if blankText text then .error "No text provided"
  else
    let summarizer := get_summarizer mode
      (if mode = "online" then some api_key else none)
    match summarizer.runSummarize remote text tier with
    | .error e => .error e
    | .ok summary =>
      match summarizer.runExtract remote text 5 with
      | .error e => .error e
      | .ok key_points =>
        .ok ⟨summary, key_points, mode, tier, filename, file_type,
          text.length, summary.length⟩

/-- Code `cli.py` lines 38-68: the `summarize` command after file parsing -
reject text that is empty after stripping, reject online mode without a
credential, then run both operations. -/
def cliSummarize (remote : String → String) (text mode tier : String)
    (api_key : Option String) : Except String (String × List String) :=
  if blankText text then .error "No text content found in file"
  else if mode = "online" && credentialMissing api_key then
    .error "API key required for online mode. Use --api-key or set GEMINI_API_KEY"
  else
    match (get_summarizer mode api_key).runSummarize remote text tier with
    | .error e => .error e
    | .ok summary =>
      match (get_summarizer mode api_key).runExtract remote text 5 with
      | .error e => .error e
      | .ok key_points => .ok (summary, key_points)

/-- The JSON value type, the structured data carried by `json.dumps` and
`json.loads` in `storage.py`. -/
inductive Json where
  | null : Json
  | str (s : String) : Json
  | num (n : Int) : Json
  | arr (xs : List Json) : Json
  | obj (fields : List (String × Json)) : Json

/-- JSON text, classified by parsing: well-formed text is identified with
the value it parses to (the standard library's `json.dumps` is injective
and never produces the empty string, and `json.loads` is its left
inverse); text that fails to parse is carried verbatim. -/
inductive JText where
  | valid (j : Json) : JText
  | invalid (s : String) : JText

/-- Python `json.dumps`: the serialization of a value, as classified
text. -/
def json_dumps (j : Json) : JText :=
  .valid j

/-- Python `json.loads`: succeeds exactly on well-formed text. -/
def json_loads : JText → Option Json
  | .valid j => some j
  | .invalid _ => none

/-- Python truthiness of a stored text value: only the empty string is
falsy (serialized JSON is never empty). -/
def JText.isFalsy : JText → Bool
  | .valid _ => false
  | .invalid s => s == ""

/-- Code `storage.py` lines 27-39: a row of the `summaries` table
(`created_at` carries the value SQLite filled in at insert time). -/
structure Row where
  id : Nat
  filename : String
  original_text : String
  summary : String
  key_points : JText
  mode : String
  length : String
  file_type : String
  created_at : String

/-- The SQLite database: the stored rows plus the `AUTOINCREMENT`
counter. -/
structure DB where
  rows : List Row
  nextId : Nat

/-- Code `storage.py` lines 22-42: a fresh database; `AUTOINCREMENT` ids
start at 1. -/
def init_db : DB :=
  ⟨[], 1⟩

/-- Invariant maintained by the storage layer: every stored id is below the
autoincrement counter. -/
def DB.wf (db : DB) : Bool :=
  db.rows.all (fun r => decide (r.id < db.nextId))

/-- Code `storage.py` lines 45-73: `save_summary` - insert a row whose
`key_points` column holds `json.dumps(key_points)`, return the fresh id
(`cursor.lastrowid`) and the updated database.  `created_at` is the
`CURRENT_TIMESTAMP` default, passed here explicitly. -/
def save_summary (db : DB) (filename original_text summary : String)
    (key_points : List String) (mode length file_type created_at : String) :
    Nat × DB :=
  let row : Row :=
    ⟨db.nextId, filename, original_text, summary,
      json_dumps (Json.arr (key_points.map Json.str)),
      mode, length, file_type, created_at⟩
  (db.nextId, ⟨db.rows ++ [row], db.nextId + 1⟩)

/-- The dynamic value of the `key_points` field of a fetched record: either
the stored text left unparsed, or a parsed JSON value. -/
inductive PyVal where
  | text (t : JText) : PyVal
  | json (j : Json) : PyVal

/-- Code `storage.py` lines 141-149 output: a fetched record as a
dictionary. -/
structure SummaryRecord where
  id : Nat
  filename : String
  original_text : String
  summary : String
  key_points : PyVal
  mode : String
  length : String
  file_type : String
  created_at : String

/-- Code `storage.py` lines 141-149: `dict_from_row` - when the stored
`key_points` value is truthy, parse it, substituting the empty list on a
decode error; a falsy value is left unchanged by the truthiness guard. -/
def dict_from_row (r : Row) : SummaryRecord :=
  ⟨r.id, r.filename, r.original_text, r.summary,
    (if r.key_points.isFalsy then .text r.key_points
     else
       match json_loads r.key_points with
       | some j => .json j
       | none => .json (Json.arr [])),
    r.mode, r.length, r.file_type, r.created_at⟩

/-- Code `storage.py` lines 76-93: `get_summary` - fetch the row with the
given id, converted by `dict_from_row`; `none` when absent. -/
def get_summary (db : DB) (summary_id : Nat) : Option SummaryRecord :=
  (db.rows.find? (fun r => r.id == summary_id)).map dict_from_row

/-- Code `storage.py` lines 121-138: `delete_summary` - remove the row with
the given id; the boolean is `cursor.rowcount > 0`, true exactly when a
matching row existed. -/
def delete_summary (db : DB) (summary_id : Nat) : Bool × DB :=
  (db.rows.any (fun r => r.id == summary_id),
   ⟨db.rows.filter (fun r => !(r.id == summary_id)), db.nextId⟩)

/-- The elements of a parsed `key_points` list; non-list values yield
nothing to iterate. -/
def PyVal.asList : PyVal → List Json
  | .json (.arr xs) => xs
  | _ => []

/-- How a parsed JSON element renders inside a Python f-string; only
strings occur on the save path. -/
def jsonScalarStr : Json → String
  | .str s => s
  | .num n => toString n
  | .null => "None"
  | .arr _ => ""
  | .obj _ => ""

/-- The serialization of a fetched record, in the table's column order, as
produced by `json.dumps(summary, indent=2, default=str)`. -/
def recordJson (rec : SummaryRecord) : Json :=
  .obj [("id", .num (rec.id : Int)),
        ("filename", .str rec.filename),
        ("original_text", .str rec.original_text),
        ("summary", .str rec.summary),
        ("key_points", match rec.key_points with
            | .json j => j
            | .text (.invalid s) => .str s
            | .text (.valid j) => j),
        ("mode", .str rec.mode),
        ("length", .str rec.length),
        ("file_type", .str rec.file_type),
        ("created_at", .str rec.created_at)]

/-- Field lookup in a JSON object, as a parser of the exported text would
perform it. -/
def Json.getField : Json → String → Option Json
  | .obj fs, k => fs.lookup k
  | _, _ => none

/-- Code `storage.py` line 176 and 182: the 50-character separator bar. -/
def eqBar : String :=
  (List.replicate 50 '=').asString

/-- Code `storage.py` lines 170-187: the lines of the plain-text export. -/
def exportLines (rec : SummaryRecord) : List String :=
  ["Document: " ++ rec.filename,
   "Date: " ++ rec.created_at,
   "Mode: " ++ rec.mode ++ " | Length: " ++ rec.length,
   "",
   eqBar, "SUMMARY", eqBar, rec.summary, "",
   eqBar, "KEY POINTS", eqBar] ++
  (rec.key_points.asList.enum.map
    (fun p => toString (p.fst + 1) ++ ". " ++ jsonScalarStr p.snd))

/-- Code `storage.py` lines 152-189: `export_summary` - `none` when the id
is absent; the `json` format serializes the fetched record, any other
format renders the plain-text report. -/
def export_summary (db : DB) (summary_id : Nat) (format : String) :
    Option (String ⊕ JText) :=
  match get_summary db summary_id with
  | none => none
  | some rec =>
    if format = "json" then some (.inr (json_dumps (recordJson rec)))
    else some (.inl (String.intercalate "\n" (exportLines rec)))

/-- A malformed stored row: its `key_points` column holds the empty string,
which is not valid JSON but is falsy in Python. -/
def emptyKPRow : Row :=
  ⟨1, "doc.txt", "orig", "sum", .invalid "", "local", "medium", "text", "2026-01-01"⟩

/-- A malformed stored row whose `key_points` column holds non-empty text
that is not valid JSON. -/
def garbageKPRow : Row :=
  ⟨2, "doc.txt", "orig", "sum", .invalid "not json", "local", "medium", "text", "2026-01-01"⟩

theorem splitAcc_substr (rest : Str) :
    ∀ (acc c : Str), c ∈ splitAcc rest acc → c <:+: acc.reverse ++ rest := by
  induction rest with
  | nil =>
    intro acc c h
    unfold splitAcc at h
    by_cases ha : acc = []
    · simp [ha] at h
    · simp [ha] at h
      exact ⟨[], [], by simp [h]⟩
  | cons d rest ih =>
    intro acc c h
    unfold splitAcc at h
    by_cases hd : isTerminatorChar d
    · simp [hd] at h
      rcases h with h | h
      · exact ⟨[], rest, by simp [h]⟩
      · have h2 := ih [] c h
        simp at h2
        have hsub : rest <:+: acc.reverse ++ d :: rest :=
          ⟨acc.reverse ++ [d], [], by simp⟩
        exact h2.trans hsub
    · simp [hd] at h
      have h2 := ih (d :: acc) c h
      simpa using h2

theorem splitSentencesChunks_substr {l c : Str} (h : c ∈ splitSentencesChunks l) :
    c <:+: l := by
  have := splitAcc_substr l [] c h
  simpa using this

theorem dropWhile_idem {α : Type} (p : α → Bool) (l : List α) :
    (l.dropWhile p).dropWhile p = l.dropWhile p := by
  induction l with
  | nil => rfl
  | cons c t ih =>
    by_cases hp : p c
    · simp [List.dropWhile_cons, hp, ih]
    · simp [List.dropWhile_cons, hp]

theorem dropWhile_fixed_of_prefix {α : Type} {p : α → Bool} {l m : List α}
    (hpre : l <+: m) (hm : m.dropWhile p = m) : l.dropWhile p = l := by
  cases m with
  | nil =>
    have : l = [] := List.prefix_nil.mp hpre
    simp [this]
  | cons c m' =>
    have hc : p c = false := by
      by_cases hp : p c
      · rw [List.dropWhile_cons, if_pos hp] at hm
        have hlen : (m'.dropWhile p).length ≤ m'.length :=
          (List.dropWhile_sublist p).length_le
        rw [hm] at hlen
        simp at hlen
      · simpa using hp
    cases l with
    | nil => rfl
    | cons d l' =>
      have hd : d = c := (List.cons_prefix_cons.mp hpre).1
      rw [List.dropWhile_cons, hd, hc]
      simp

theorem trim_prefix_dropWhile (l : Str) :
    trimChunk l <+: l.dropWhile isSpaceChar := by
  unfold trimChunk
  rw [← List.reverse_suffix]
  simpa using List.dropWhile_suffix isSpaceChar

theorem trimChunk_substr (l : Str) : trimChunk l <:+: l :=
  (trim_prefix_dropWhile l).isInfix.trans (List.dropWhile_suffix isSpaceChar).isInfix

theorem trimChunk_idem (l : Str) : trimChunk (trimChunk l) = trimChunk l := by
  have ha : (trimChunk l).dropWhile isSpaceChar = trimChunk l :=
    dropWhile_fixed_of_prefix (trim_prefix_dropWhile l) (dropWhile_idem _ _)
  have hb : (trimChunk l).reverse.dropWhile isSpaceChar = (trimChunk l).reverse := by
    show ((((l.dropWhile isSpaceChar).reverse.dropWhile isSpaceChar).reverse).reverse.dropWhile
      isSpaceChar) = _
    rw [List.reverse_reverse]
    rw [dropWhile_idem]
    simp [trimChunk]
  show (((trimChunk l).dropWhile isSpaceChar).reverse.dropWhile isSpaceChar).reverse = _
  rw [ha, hb, List.reverse_reverse]

theorem sentenceTexts_facts {text : Str} {t : Str} (h : t ∈ sentenceTexts text) :
    t ≠ [] ∧ t <:+: text ∧ trimChunk t = t := by
  unfold sentenceTexts at h
  have h1 := List.mem_filter.mp h
  rcases List.mem_map.mp h1.1 with ⟨chunk, hchunk, heq⟩
  refine ⟨?_, ?_, ?_⟩
  · intro he
    rw [he] at h1
    simp at h1
  · rw [← heq]
    exact (trimChunk_substr chunk).trans (splitSentencesChunks_substr hchunk)
  · rw [← heq, trimChunk_idem]

theorem tokenize_length (text : String) :
    (tokenize text).length = (sentenceTexts text.toList).length := by
  simp [tokenize]

theorem tokenize_getElem?_eq {text : String} {i : Nat} {s : Sentence}
    (h : (tokenize text)[i]? = some s) :
    s.idx = i ∧ s.text = (sentenceTexts text.toList).getD i [] := by
  unfold tokenize at h
  rw [List.getElem?_map] at h
  cases hr : (List.range (sentenceTexts text.toList).length)[i]? with
  | none => rw [hr] at h; simp at h
  | some j =>
    rw [hr] at h
    have hj : j = i := by
      rcases List.getElem?_eq_some.mp hr with ⟨hlt, hv⟩
      rw [List.getElem_range] at hv
      omega
    simp only [Option.map_some'] at h
    cases h
    simp [hj]

theorem tokenize_mem {text : String} {s : Sentence} (h : s ∈ tokenize text) :
    s.text ∈ sentenceTexts text.toList := by
  unfold tokenize at h
  rcases List.mem_map.mp h with ⟨i, hi, heq⟩
  have hilt : i < (sentenceTexts text.toList).length := List.mem_range.mp hi
  have : s.text = (sentenceTexts text.toList).getD i [] := by rw [← heq]
  rw [this, List.getD_eq_getElem?_getD, List.getElem?_eq_getElem hilt]
  simp only [Option.getD_some]
  exact List.getElem_mem hilt

theorem argBest_mem {scores : List ℚ} :
    ∀ {cs : List Nat} {i : Nat}, argBest scores cs = some i → i ∈ cs := by
  intro cs
  induction cs with
  | nil => intro i h; simp [argBest] at h
  | cons c t ih =>
    intro i h
    unfold argBest at h
    cases hb : argBest scores t with
    | none => rw [hb] at h; cases h; simp
    | some b =>
      rw [hb] at h
      by_cases hbc : beats scores b c
      · simp only [hbc, if_true] at h
        cases h
        exact List.mem_cons_of_mem c (ih hb)
      · simp only [hbc, if_false, Bool.false_eq_true] at h
        cases h
        simp

theorem argBest_eq_none {scores : List ℚ} {cs : List Nat}
    (h : argBest scores cs = none) : cs = [] := by
  cases cs with
  | nil => rfl
  | cons c t =>
    unfold argBest at h
    cases hb : argBest scores t with
    | none => rw [hb] at h; cases h
    | some b =>
      rw [hb] at h
      by_cases hbc : beats scores b c <;> simp [hbc] at h

theorem topIndicesAux_subset {scores : List ℚ} :
    ∀ (k : Nat) (cands : List Nat) (x : Nat),
      x ∈ topIndicesAux scores k cands → x ∈ cands := by
  intro k
  induction k with
  | zero => intro cands x h; simp [topIndicesAux] at h
  | succ k ih =>
    intro cands x h
    unfold topIndicesAux at h
    cases hb : argBest scores cands with
    | none => rw [hb] at h; simp at h
    | some b =>
      rw [hb] at h
      rcases List.mem_cons.mp h with h | h
      · rw [h]; exact argBest_mem hb
      · exact List.erase_subset b cands (ih _ x h)

theorem topIndicesAux_length {scores : List ℚ} :
    ∀ (k : Nat) (cands : List Nat),
      (topIndicesAux scores k cands).length = min k cands.length := by
  intro k
  induction k with
  | zero => intro cands; simp [topIndicesAux]
  | succ k ih =>
    intro cands
    unfold topIndicesAux
    cases hb : argBest scores cands with
    | none =>
      have : cands = [] := argBest_eq_none hb
      simp [this]
    | some b =>
      have hmem : b ∈ cands := argBest_mem hb
      have hpos : 0 < cands.length := List.length_pos.mpr (by rintro rfl; simp at hmem)
      simp only [List.length_cons, ih, List.length_erase_of_mem hmem]
      omega

theorem topIndicesAux_nodup {scores : List ℚ} :
    ∀ (k : Nat) (cands : List Nat), cands.Nodup →
      (topIndicesAux scores k cands).Nodup := by
  intro k
  induction k with
  | zero => intro cands _; simp [topIndicesAux]
  | succ k ih =>
    intro cands hnd
    unfold topIndicesAux
    cases hb : argBest scores cands with
    | none => simp
    | some b =>
      refine List.Pairwise.cons ?_ (ih _ (hnd.erase b))
      intro x hx hbx
      rw [hbx] at hx
      exact hnd.not_mem_erase (topIndicesAux_subset _ _ _ hx)

theorem selectIdx_sorted (scores : List ℚ) (count : Nat) :
    (selectIdx scores count).Pairwise (· < ·) :=
  List.Pairwise.sublist (List.filter_sublist _) (List.pairwise_lt_range _)

theorem selectIdx_lt {scores : List ℚ} {count : Nat} {i : Nat}
    (h : i ∈ selectIdx scores count) : i < scores.length := by
  unfold selectIdx at h
  exact List.mem_range.mp (List.mem_filter.mp h).1

theorem selectIdx_length {scores : List ℚ} {count : Nat}
    (h : count ≤ scores.length) : (selectIdx scores count).length = count := by
  unfold selectIdx
  set top := topIndicesAux scores count (List.range scores.length) with htop
  have hlen : top.length = count := by
    rw [htop, topIndicesAux_length, List.length_range]
    omega
  have hnd : top.Nodup := topIndicesAux_nodup _ _ (List.nodup_range _)
  have hperm : List.Perm
      ((List.range scores.length).filter (fun i => decide (i ∈ top))) top := by
    rw [List.perm_ext_iff_of_nodup
      (List.Nodup.sublist (List.filter_sublist _) (List.nodup_range _)) hnd]
    intro a
    constructor
    · intro ha
      have := (List.mem_filter.mp ha).2
      simpa using this
    · intro ha
      refine List.mem_filter.mpr ⟨?_, by simpa using ha⟩
      exact List.mem_range.mpr
        (List.mem_range.mp (topIndicesAux_subset _ _ _ ha))
  rw [hperm.length_eq, hlen]

theorem length_filterMap_getElem? (sents : List Sentence) :
    ∀ (l : List Nat), (∀ i ∈ l, i < sents.length) →
      (l.filterMap (fun i => sents[i]?)).length = l.length := by
  intro l
  induction l with
  | nil => intro _; simp
  | cons a t ih =>
    intro h
    have ha : a < sents.length := h a (by simp)
    rw [List.filterMap_cons, List.getElem?_eq_getElem ha]
    simp only [List.length_cons]
    rw [ih (fun i hi => h i (by simp [hi]))]

theorem textrank_length (sents : List Sentence) :
    (textrank sents).length = sents.length := by
  simp [textrank]

theorem sentenceCountFor_default {tier : String} (h1 : tier ≠ "short")
    (h2 : tier ≠ "medium") (h3 : tier ≠ "long") : sentenceCountFor tier = 5 := by
  unfold sentenceCountFor sentence_counts
  have e1 : (tier == "short") = false := beq_eq_false_iff_ne.mpr h1
  have e2 : (tier == "medium") = false := beq_eq_false_iff_ne.mpr h2
  have e3 : (tier == "long") = false := beq_eq_false_iff_ne.mpr h3
  simp [List.lookup, e1, e2, e3]

theorem sentenceCountFor_cases (tier : String) :
    sentenceCountFor tier = 3 ∨ sentenceCountFor tier = 5 ∨ sentenceCountFor tier = 8 := by
  by_cases h1 : tier = "short"
  · subst h1; left; rfl
  · by_cases h2 : tier = "medium"
    · subst h2; right; left; rfl
    · by_cases h3 : tier = "long"
      · subst h3; right; right; rfl
      · right; left; exact sentenceCountFor_default h1 h2 h3

theorem sentenceCountFor_pos (tier : String) : 0 < sentenceCountFor tier := by
  rcases sentenceCountFor_cases tier with h | h | h <;> omega

theorem joinWords_ne_nil {ws : List Str} {w : Str} (hw : ws ≠ [])
    (hhead : ∀ x ∈ ws, x ≠ []) (hfirst : w ∈ [ws.headI]) : joinWords ws ≠ [] := by
  cases ws with
  | nil => exact absurd rfl hw
  | cons a t =>
    unfold joinWords
    have : a ≠ [] := hhead a (by simp)
    intro hcontra
    rcases List.append_eq_nil.mp hcontra with ⟨h1, _⟩
    exact this h1

/-- C2: the local summarizer maps the length tier to a target sentence count
exactly as `short → 3`, `medium → 5`, `long → 8`: the configuration table
holds exactly these three entries and the lookup returns the mapped value
on each of them. -/
theorem c2_tier_table :
    sentence_counts = [("short", 3), ("medium", 5), ("long", 8)] ∧
    sentenceCountFor "short" = 3 ∧ sentenceCountFor "medium" = 5 ∧
    sentenceCountFor "long" = 8 :=
  ⟨rfl, rfl, rfl, rfl⟩

/-- C4: the local summarizer is deterministic - two invocations of
`summarize` on the same text and tier, and of `extract_key_points` on the
same text and point count, are equal (the embedding is a pure function of
its arguments; the Python object holds no state that influences the
output, its only mutable flag being the lazy NLTK-download guard). -/
theorem c4_deterministic (text tier : String) (max_points : Nat) :
    LocalSummarizer.summarize text tier = LocalSummarizer.summarize text tier ∧
    LocalSummarizer.extract_key_points text max_points =
      LocalSummarizer.extract_key_points text max_points :=
  ⟨rfl, rfl⟩

/-- C9: a length argument outside `{short, medium, long}` does not fail:
the dictionary lookup falls back to the default count 5, so `summarize`
behaves exactly as for the `medium` tier. -/
theorem c9_unknown_tier (text tier : String) (h1 : tier ≠ "short")
    (h2 : tier ≠ "medium") (h3 : tier ≠ "long") :
    sentenceCountFor tier = 5 ∧
    LocalSummarizer.summarize text tier = LocalSummarizer.summarize text "medium" := by
  have h5 := sentenceCountFor_default h1 h2 h3
  refine ⟨h5, ?_⟩
  unfold LocalSummarizer.summarize
  rw [h5]
  rfl

theorem c9_unknown_tier_witness :
    ("extra" ≠ "short" ∧ "extra" ≠ "medium" ∧ "extra" ≠ "long") ∧
    LocalSummarizer.summarize "One. Two." "extra" =
      LocalSummarizer.summarize "One. Two." "medium" :=
  ⟨⟨by decide, by decide, by decide⟩,
   (c9_unknown_tier "One. Two." "extra" (by decide) (by decide) (by decide)).2⟩

/-- C5: empty or whitespace-only input is rejected by both the HTTP
handler and the CLI command with their caller-visible errors, before any
summarizer is constructed or invoked - the result is the fixed error for
every choice of mode, tier, credential and remote collaborator, so no
summarization output can influence it. -/
theorem c5_blank_rejected (remote : String → String)
    (mode tier api_key filename file_type text : String) (key : Option String)
    (h : blankText text = true) :
    apiSummarize remote mode tier api_key text filename file_type =
      .error "No text provided" ∧
    cliSummarize remote text mode tier key =
      .error "No text content found in file" := by
  unfold apiSummarize cliSummarize
  rw [h]
  simp

theorem c5_blank_rejected_witness :
    blankText " \n\t " = true ∧
    apiSummarize (fun _ => "resp") "online" "short" "k" " \n\t " "f.txt" "text" =
      .error "No text provided" ∧
    cliSummarize (fun _ => "resp") " \n\t " "local" "medium" none =
      .error "No text content found in file" :=
  ⟨by decide,
   (c5_blank_rejected (fun _ => "resp") "online" "short" "k" "f.txt" "text"
      " \n\t " none (by decide)).1,
   (c5_blank_rejected (fun _ => "resp") "local" "medium" "k" "f.txt" "text"
      " \n\t " none (by decide)).2⟩

/-- C6: selecting the online strategy without a credential (absent or
empty) yields the online summarizer from the factory - never the local
one - and both of its operations fail with the missing-credentials error
instead of producing any local result. -/
theorem c6_missing_credentials (remote : String → String) (key : Option String)
    (hk : credentialMissing key = true) (text tier : String) (k : Nat) :
    get_summarizer "online" key = Summarizer.onlineMode key ∧
    (get_summarizer "online" key).runSummarize remote text tier =
      .error missingKeyMsg ∧
    (get_summarizer "online" key).runExtract remote text k =
      .error missingKeyMsg := by
  have hg : get_summarizer "online" key = Summarizer.onlineMode key := by
    unfold get_summarizer
    simp
  refine ⟨hg, ?_, ?_⟩ <;>
    rw [hg] <;>
    simp [Summarizer.runSummarize, Summarizer.runExtract, hk]

theorem c6_missing_credentials_witness :
    credentialMissing (some "") = true ∧ credentialMissing none = true ∧
    (get_summarizer "online" (some "")).runSummarize (fun _ => "resp") "text" "short" =
      .error missingKeyMsg ∧
    (get_summarizer "online" none).runExtract (fun _ => "resp") "text" 5 =
      .error missingKeyMsg :=
  ⟨by decide, by decide,
   (c6_missing_credentials (fun _ => "resp") (some "") (by decide) "text" "short" 5).2.1,
   (c6_missing_credentials (fun _ => "resp") none (by decide) "text" "short" 5).2.2⟩

/-- C8: `delete_summary` returns true exactly when a record with the id
existed (so deleting a nonexistent id reports not-found, returning false,
without error), and after the deletion a `get_summary` of the same id
reports not-found. -/
theorem c8_delete_then_get (db : DB) (summary_id : Nat) :
    ((delete_summary db summary_id).1 = true ↔
      (get_summary db summary_id).isSome = true) ∧
    get_summary (delete_summary db summary_id).2 summary_id = none := by
  constructor
  · unfold delete_summary get_summary
    simp only [Option.isSome_map']
    rw [List.any_eq_true, List.find?_isSome]
  · unfold get_summary delete_summary
    simp only []
    rw [List.find?_eq_none.mpr, Option.map_none']
    intro x hx
    have hmem := (List.mem_filter.mp hx).2
    simp only [Bool.not_eq_true'] at hmem
    simp [hmem]

/-- C10 as stated is false: a stored row whose `key_points` column holds
the empty string - text that cannot be parsed as JSON - is left unchanged
by `dict_from_row`, because the Python truthiness guard
`if ... and data['key_points']` skips the parse for a falsy value, so the
returned field is the empty string, not the empty list. -/
theorem c10_counterexample :
    json_loads emptyKPRow.key_points = none ∧
    (dict_from_row emptyKPRow).key_points = PyVal.text (JText.invalid "") ∧
    (dict_from_row emptyKPRow).key_points ≠ PyVal.json (Json.arr []) := by
  refine ⟨rfl, rfl, ?_⟩
  intro h
  have h2 : PyVal.text (JText.invalid "") = PyVal.json (Json.arr []) := h
  exact PyVal.noConfusion h2

/-- C10 amended: `get_summary` never raises (the embedding is total), and
for every stored row whose `key_points` value is truthy (non-empty text)
and cannot be parsed as JSON, the returned record has `key_points` equal
to the empty list; a falsy (empty) stored value is left unchanged instead
of being replaced by the empty list. -/
theorem c10_amended (r : Row) (hfal : r.key_points.isFalsy = false)
    (hbad : json_loads r.key_points = none) :
    (dict_from_row r).key_points = PyVal.json (Json.arr []) := by
  unfold dict_from_row
  simp only [hfal, Bool.false_eq_true, if_false, hbad]

theorem c10_amended_witness :
    garbageKPRow.key_points.isFalsy = false ∧
    json_loads garbageKPRow.key_points = none ∧
    (dict_from_row garbageKPRow).key_points = PyVal.json (Json.arr []) :=
  ⟨by decide, rfl, c10_amended garbageKPRow (by decide) rfl⟩

theorem get_after_save (db : DB) (hwf : db.wf = true)
    (filename original_text summary : String) (key_points : List String)
    (mode len file_type created_at : String) :
    get_summary
        (save_summary db filename original_text summary key_points mode len
          file_type created_at).2
        (save_summary db filename original_text summary key_points mode len
          file_type created_at).1 =
      some (dict_from_row
        ⟨db.nextId, filename, original_text, summary,
          json_dumps (Json.arr (key_points.map Json.str)),
          mode, len, file_type, created_at⟩) := by
  unfold get_summary save_summary
  simp only []
  rw [List.find?_append]
  have hnone : db.rows.find? (fun r => r.id == db.nextId) = none := by
    rw [List.find?_eq_none]
    intro x hx
    have hlt : x.id < db.nextId := by
      have := List.all_eq_true.mp hwf x hx
      simpa using this
    simp
    omega
  rw [hnone]
  simp [List.find?]

/-- C7: persistence round-trip - `save_summary` followed by `get_summary`
of the returned id yields a record whose `filename`, `summary`,
`key_points`, `mode`, `length` and `file_type` equal the saved values (the
key points as the parsed JSON list of the saved strings), and the JSON
export of that id parses back to a JSON object reproducing the same
structured fields. -/
theorem c7_save_get_export_roundtrip (db : DB) (hwf : db.wf = true)
    (filename original_text summary : String) (key_points : List String)
    (mode len file_type created_at : String) :
    ∃ rec,
      get_summary
          (save_summary db filename original_text summary key_points mode len
            file_type created_at).2
          (save_summary db filename original_text summary key_points mode len
            file_type created_at).1 = some rec ∧
      rec.filename = filename ∧
      rec.summary = summary ∧
      rec.key_points = PyVal.json (Json.arr (key_points.map Json.str)) ∧
      rec.mode = mode ∧
      rec.length = len ∧
      rec.file_type = file_type ∧
      export_summary
          (save_summary db filename original_text summary key_points mode len
            file_type created_at).2
          (save_summary db filename original_text summary key_points mode len
            file_type created_at).1 "json" =
        some (Sum.inr (json_dumps (recordJson rec))) ∧
      json_loads (json_dumps (recordJson rec)) = some (recordJson rec) ∧
      (recordJson rec).getField "filename" = some (Json.str filename) ∧
      (recordJson rec).getField "summary" = some (Json.str summary) ∧
      (recordJson rec).getField "key_points" =
        some (Json.arr (key_points.map Json.str)) ∧
      (recordJson rec).getField "mode" = some (Json.str mode) ∧
      (recordJson rec).getField "length" = some (Json.str len) ∧
      (recordJson rec).getField "file_type" = some (Json.str file_type) := by
  have hget := get_after_save db hwf filename original_text summary key_points
    mode len file_type created_at
  refine ⟨_, hget, rfl, rfl, rfl, rfl, rfl, rfl, ?_, rfl, rfl, rfl, rfl, rfl,
    rfl, rfl⟩
  unfold export_summary
  rw [hget]
  rfl

theorem c7_save_get_export_roundtrip_witness :
    init_db.wf = true ∧
    ∃ rec,
      get_summary
          (save_summary init_db "doc.txt" "orig text" "a summary"
            ["p1", "p2"] "local" "short" "text" "2026-01-01").2
          (save_summary init_db "doc.txt" "orig text" "a summary"
            ["p1", "p2"] "local" "short" "text" "2026-01-01").1 = some rec ∧
      rec.filename = "doc.txt" ∧
      rec.summary = "a summary" ∧
      rec.key_points =
        PyVal.json (Json.arr (["p1", "p2"].map Json.str)) ∧
      rec.mode = "local" ∧
      rec.length = "short" ∧
      rec.file_type = "text" ∧
      export_summary
          (save_summary init_db "doc.txt" "orig text" "a summary"
            ["p1", "p2"] "local" "short" "text" "2026-01-01").2
          (save_summary init_db "doc.txt" "orig text" "a summary"
            ["p1", "p2"] "local" "short" "text" "2026-01-01").1 "json" =
        some (Sum.inr (json_dumps (recordJson rec))) ∧
      json_loads (json_dumps (recordJson rec)) = some (recordJson rec) ∧
      (recordJson rec).getField "filename" = some (Json.str "doc.txt") ∧
      (recordJson rec).getField "summary" = some (Json.str "a summary") ∧
      (recordJson rec).getField "key_points" =
        some (Json.arr (["p1", "p2"].map Json.str)) ∧
      (recordJson rec).getField "mode" = some (Json.str "local") ∧
      (recordJson rec).getField "length" = some (Json.str "short") ∧
      (recordJson rec).getField "file_type" = some (Json.str "text") :=
  ⟨by decide,
   c7_save_get_export_roundtrip init_db (by decide) "doc.txt" "orig text"
     "a summary" ["p1", "p2"] "local" "short" "text" "2026-01-01"⟩

/-- C3 as stated is false at the empty input: every term trivially fails
to survive stopword removal, yet `extract_key_points` does not return the
first `maxPoints` sentences (there are none) - the empty key-point list
triggers the final fallback and the single truncated-prefix entry
`"..."` is returned instead. -/
theorem c3_counterexample :
    lsaTerms (tokenize "") = [] ∧
    LocalSummarizer.extract_key_points "" 3 = ["..."] ∧
    ((tokenize "").take 3).map (fun s => s.text.asString) = [] ∧
    (["..."] : List String) ≠ [] := by
  refine ⟨rfl, rfl, rfl, by decide⟩

/-- C3 amended: for every input that yields at least one sentence and
every positive `maxPoints`, when no terms survive stopword removal
`extract_key_points` raises no exception (the embedding is total) and
returns the first `min maxPoints N` sentences of the input in original
order; for zero-sentence input or `maxPoints = 0` it returns the single
truncated-prefix fallback entry instead. -/
theorem c3_stopword_fallback (text : String) (max_points : Nat)
    (hk : 0 < max_points) (hs : tokenize text ≠ [])
    (hterms : lsaTerms (tokenize text) = []) :
    LocalSummarizer.extract_key_points text max_points =
      ((tokenize text).take max_points).map (fun s => s.text.asString) := by
  unfold LocalSummarizer.extract_key_points lsaSelect
  rw [if_pos hterms]
  have hmap : ((tokenize text).take max_points).map
      (fun s => (trimChunk s.text).asString) =
      ((tokenize text).take max_points).map (fun s => s.text.asString) := by
    apply List.map_congr_left
    intro s hsmem
    have hmem : s ∈ tokenize text := List.mem_of_mem_take hsmem
    have := (sentenceTexts_facts (tokenize_mem hmem)).2.2
    rw [this]
  rw [hmap]
  have hne : ((tokenize text).take max_points).map
      (fun s => s.text.asString) ≠ [] := by
    simp only [ne_eq, List.map_eq_nil_iff, List.take_eq_nil_iff]
    push_neg
    constructor
    · omega
    · exact hs
  rw [if_neg (by simpa [List.isEmpty_iff] using hne)]

theorem c3_stopword_fallback_witness :
    (0 < 2 ∧ tokenize "The of and. An a the." ≠ [] ∧
      lsaTerms (tokenize "The of and. An a the.") = []) ∧
    LocalSummarizer.extract_key_points "The of and. An a the." 2 =
      ((tokenize "The of and. An a the.").take 2).map (fun s => s.text.asString) :=
  ⟨⟨by decide, by decide, by decide⟩,
   c3_stopword_fallback "The of and. An a the." 2 (by decide) (by decide)
     (by decide)⟩

/-- C1: for non-empty input with at least as many sentences as the tier's
target count, the local `summarize` selects exactly that many sentences,
each one of the tokenizer's sentences of the source (hence appearing
verbatim, as a contiguous substring of the source text), in strictly
increasing original order, and returns exactly their space-joined
concatenation. -/
theorem c1_summarize_exact_count (text tier : String) (_hne : text ≠ "")
    (hcount : sentenceCountFor tier ≤ (tokenize text).length) :
    (summarySelectionC text (sentenceCountFor tier)).length =
      sentenceCountFor tier ∧
    (∀ s ∈ summarySelectionC text (sentenceCountFor tier),
        s ∈ tokenize text ∧ s.text <:+: text.toList) ∧
    (summarySelectionC text (sentenceCountFor tier)).Pairwise
      (fun a b => a.idx < b.idx) ∧
    LocalSummarizer.summarize text tier =
      (joinWords ((summarySelectionC text (sentenceCountFor tier)).map
        Sentence.text)).asString := by
  have hslen : (textrank (tokenize text)).length = (tokenize text).length :=
    textrank_length (tokenize text)
  have hc2 : sentenceCountFor tier ≤ (textrank (tokenize text)).length := by
    rw [hslen]; exact hcount
  have hlt : ∀ i ∈ selectIdx (textrank (tokenize text)) (sentenceCountFor tier),
      i < (tokenize text).length := by
    intro i hi
    have := selectIdx_lt hi
    omega
  have hlen : (summarySelectionC text (sentenceCountFor tier)).length =
      sentenceCountFor tier := by
    unfold summarySelectionC
    rw [length_filterMap_getElem? (tokenize text) _ hlt]
    exact selectIdx_length hc2
  have hmem : ∀ s ∈ summarySelectionC text (sentenceCountFor tier),
      s ∈ tokenize text ∧ s.text <:+: text.toList := by
    intro s hs
    unfold summarySelectionC at hs
    rcases List.mem_filterMap.mp hs with ⟨i, _, hgei⟩
    have hsmem : s ∈ tokenize text := List.getElem?_mem hgei
    exact ⟨hsmem, (sentenceTexts_facts (tokenize_mem hsmem)).2.1⟩
  refine ⟨hlen, hmem, ?_, ?_⟩
  · unfold summarySelectionC
    rw [List.pairwise_filterMap]
    refine List.Pairwise.imp ?_ (selectIdx_sorted _ _)
    intro a b hab s hs s' hs'
    have h1 := (tokenize_getElem?_eq (Option.mem_def.mp hs)).1
    have h2 := (tokenize_getElem?_eq (Option.mem_def.mp hs')).1
    rw [h1, h2]
    exact hab
  · have hne2 : joinWords ((summarySelectionC text (sentenceCountFor tier)).map
        Sentence.text) ≠ [] := by
      cases hsel : summarySelectionC text (sentenceCountFor tier) with
      | nil =>
        exfalso
        rw [hsel] at hlen
        have := sentenceCountFor_pos tier
        simp at hlen
        omega
      | cons a t =>
        have hamem : a ∈ summarySelectionC text (sentenceCountFor tier) := by
          rw [hsel]; simp
        have hatext : a.text ≠ [] :=
          (sentenceTexts_facts (tokenize_mem (hmem a hamem).1)).1
        simp only [List.map_cons, joinWords]
        intro hcon
        rcases List.append_eq_nil.mp hcon with ⟨h1, _⟩
        exact hatext h1
    simp only [LocalSummarizer.summarize, summarizeCore]
    rw [if_neg hne2]

theorem c1_summarize_exact_count_witness :
    ("Cats chase mice. Dogs chase cats. Birds sing songs. Fish swim deep." ≠ "" ∧
      sentenceCountFor "short" ≤
        (tokenize
          "Cats chase mice. Dogs chase cats. Birds sing songs. Fish swim deep.").length) ∧
    ((summarySelectionC
        "Cats chase mice. Dogs chase cats. Birds sing songs. Fish swim deep."
        (sentenceCountFor "short")).length = sentenceCountFor "short" ∧
      (∀ s ∈ summarySelectionC
          "Cats chase mice. Dogs chase cats. Birds sing songs. Fish swim deep."
          (sentenceCountFor "short"),
        s ∈ tokenize
          "Cats chase mice. Dogs chase cats. Birds sing songs. Fish swim deep." ∧
        s.text <:+:
          ("Cats chase mice. Dogs chase cats. Birds sing songs. Fish swim deep." : String).toList) ∧
      (summarySelectionC
        "Cats chase mice. Dogs chase cats. Birds sing songs. Fish swim deep."
        (sentenceCountFor "short")).Pairwise (fun a b => a.idx < b.idx) ∧
      LocalSummarizer.summarize
        "Cats chase mice. Dogs chase cats. Birds sing songs. Fish swim deep."
        "short" =
        (joinWords ((summarySelectionC
          "Cats chase mice. Dogs chase cats. Birds sing songs. Fish swim deep."
          (sentenceCountFor "short")).map Sentence.text)).asString) :=
  ⟨⟨by decide, by decide⟩,
   c1_summarize_exact_count
     "Cats chase mice. Dogs chase cats. Birds sing songs. Fish swim deep."
     "short" (by decide) (by decide)⟩
